import Mathlib

/-!
# Verification of the Inheritance Visualizer core engine

Shallow embedding of the statutory-inheritance allocation and tax engine of
`src/App.tsx` (an inheritance visualizer): the heir resolver (`heirs` useMemo),
the progressive estate-tax calculator (`calculateInheritanceTax`), the
deduction pipeline (`autoDeductionAmount`), the asset ledger operations
(`handleDrop`, `handleResetAllocation`, `removeChild`, `removeSibling`), and
the reserved-portion warning (`HeirCard`'s `isUnderReserved`).

JavaScript numbers are modelled as exact rationals (`ℚ`); the statutory-share
arithmetic of the source is plain small-denominator division, so the rational
model is exact where the source is within its stated floating tolerance.
String operations (`String.prototype.endsWith`, `String.prototype.includes`)
are modelled as executable functions on character lists.
-/

namespace InheritanceVisualizer

/-- `type AssetType = 'cash' | 'stock' | 'property'` from the source. -/
inductive AssetType
  | cash
  | stock
  | property
deriving DecidableEq

/-- Gender union type `'male' | 'female'` from the source. -/
inductive Gender
  | male
  | female
deriving DecidableEq

/-- `type PersonStatusType = 'none' | 'alive' | 'deceased'` from the source
(`PersonStatus.NONE / ALIVE / DECEASED`). -/
inductive PersonStatus
  | none
  | alive
  | deceased
deriving DecidableEq

/-- Relation union `'spouse' | 'parent' | 'child' | 'sibling'` assigned to the
candidates inside the `heirs` useMemo. -/
inductive Relation
  | spouse
  | parent
  | child
  | sibling
deriving DecidableEq

/-- `interface Asset` from the source: id, type, amount, location, optional name. -/
structure Asset where
  id : String
  type : AssetType
  amount : ℚ
  location : String
  name : Option String := Option.none
deriving DecidableEq

/-- `interface FamilyMember` from the source.  The optional fields
`hasSpouse? / hasChildren? / childCount?` default to `false / false / 0`,
matching an absent optional field in the TypeScript record. -/
structure FamilyMember where
  id : String
  name : String
  gender : Gender
  status : PersonStatus
  hasSpouse : Bool := false
  hasChildren : Bool := false
  childCount : Nat := 0
deriving DecidableEq

/-- `interface Heir extends FamilyMember` from the source, adding the relation
tags the resolver attaches plus `isHeir`, `share` (display string) and
`legalShare`. -/
structure Heir extends FamilyMember where
  relation : Relation
  relationLabel : String
  isHeir : Bool
  share : String
  legalShare : ℚ
deriving DecidableEq

/-- The `self` field of `interface Family` (`{ name, gender }`). -/
structure SelfInfo where
  name : String
  gender : Gender
deriving DecidableEq

/-- `interface Family` from the source: fixed spouse/father/mother slots plus
children and sibling lists. -/
structure Family where
  self : SelfInfo
  spouse : FamilyMember
  father : FamilyMember
  mother : FamilyMember
  children : List FamilyMember
  siblings : List FamilyMember
deriving DecidableEq

/-! ## Tax constants and `calculateInheritanceTax` (source lines 80–100) -/

def ESTATE_TAX_EXEMPTION : ℚ := 13330000
def DEDUCTION_SPOUSE : ℚ := 5530000
def DEDUCTION_PARENT : ℚ := 1380000
def DEDUCTION_CHILD : ℚ := 560000
def DEDUCTION_FUNERAL : ℚ := 1380000

/-- One entry of `ESTATE_TAX_BRACKETS`; `limit = Option.none` models the
JavaScript `Infinity` upper bound of the catch-all bracket. -/
structure TaxBracket where
  limit : Option ℚ
  rate : ℚ
  deduction : ℚ
deriving DecidableEq

/-- `ESTATE_TAX_BRACKETS` from the source: rates 0.10 / 0.15 / 0.20 with
quick-deductions 0 / 2,810,500 / 8,431,500. -/
def ESTATE_TAX_BRACKETS : List TaxBracket :=
  [ ⟨Option.some 56210000, 1/10, 0⟩,
    ⟨Option.some 112420000, 15/100, 2810500⟩,
    ⟨Option.none, 1/5, 8431500⟩ ]

/-- The predicate `taxableAmount <= b.limit` used by the source's
`ESTATE_TAX_BRACKETS.find`; any number is `<= Infinity`. -/
def bracketLE (x : ℚ) (b : TaxBracket) : Bool :=
  match b.limit with
  | Option.some l => decide (x ≤ l)
  | Option.none => true

/-- The `max(0, taxable*rate - quickDeduction)` formula of a single bracket. -/
def taxFormula (b : TaxBracket) (x : ℚ) : ℚ :=
  max 0 (x * b.rate - b.deduction)

/-- `calculateInheritanceTax` from the source: returns `(tax, rate)`.
`ESTATE_TAX_BRACKETS.find(...) || last` is modelled by `Option.getD` with the
last bracket as default. -/
def calculateInheritanceTax (taxableAmount : ℚ) : ℚ × ℚ :=
  if taxableAmount ≤ 0 then (0, 0)
  else
    let bracket := (ESTATE_TAX_BRACKETS.find? (bracketLE taxableAmount)).getD
      (ESTATE_TAX_BRACKETS.getLastD ⟨Option.none, 0, 0⟩)
    let tax := taxableAmount * bracket.rate - bracket.deduction
    (max 0 tax, bracket.rate)

/-! ## Heir resolver (`heirs` useMemo, source lines 663–739) -/

/-- `livingChildren = family.children.filter(c => c.status === ALIVE)`. -/
def livingChildren (f : Family) : List FamilyMember :=
  f.children.filter (fun c => decide (c.status = PersonStatus.alive))

/-- `livingSiblings = family.siblings.filter(s => s.status === ALIVE)`. -/
def livingSiblings (f : Family) : List FamilyMember :=
  f.siblings.filter (fun s => decide (s.status = PersonStatus.alive))

/-- `hasSpouse = family.spouse.status === ALIVE`. -/
def hasSpouse (f : Family) : Bool := decide (f.spouse.status = PersonStatus.alive)

/-- `hasFather = family.father.status === ALIVE`. -/
def hasFather (f : Family) : Bool := decide (f.father.status = PersonStatus.alive)

/-- `hasMother = family.mother.status === ALIVE`. -/
def hasMother (f : Family) : Bool := decide (f.mother.status = PersonStatus.alive)

/-- The `allCandidates` list built at the top of the `heirs` useMemo: spouse,
father and mother whenever their status is not `NONE`, then every child and
every sibling (regardless of status), each tagged with its relation and label. -/
def allCandidates (f : Family) : List (FamilyMember × Relation × String) :=
  (if f.spouse.status ≠ PersonStatus.none then [(f.spouse, Relation.spouse, "配偶")] else [])
  ++ (if f.father.status ≠ PersonStatus.none then [(f.father, Relation.parent, "父親")] else [])
  ++ (if f.mother.status ≠ PersonStatus.none then [(f.mother, Relation.parent, "母親")] else [])
  ++ f.children.map (fun c => (c, Relation.child, "子女"))
  ++ f.siblings.map (fun s => (s, Relation.sibling, "兄弟姊妹"))

/-- The body of `allCandidates.map(person => ...)` in the source: computes
`(isHeir, share, legalShare)` from the priority-class logic.  Arguments carry
the ambient values `livingChildren.length`, `hasSpouse`, `hasFather`,
`hasMother`, `livingSiblings.length` captured by the closure. -/
def shareOf (livingChildCount : Nat) (hasSp hasFa hasMo : Bool)
    (livingSiblingCount : Nat) (rel : Relation) (status : PersonStatus) :
    Bool × String × ℚ :=
  if 0 < livingChildCount then
    -- 第一順位：直系血親卑親屬
    if (rel = Relation.child ∧ status = PersonStatus.alive) ∨
        (rel = Relation.spouse ∧ hasSp = true) then
      let totalHeirs : Nat := livingChildCount + (if hasSp then 1 else 0)
      (true, s!"1 / {totalHeirs}", 1 / (totalHeirs : ℚ))
    else (false, "0", 0)
  else if hasFa = true ∨ hasMo = true then
    -- 第二順位：父母
    if (rel = Relation.parent ∧ status = PersonStatus.alive) ∨
        (rel = Relation.spouse ∧ hasSp = true) then
      let parentCount : Nat := (if hasFa then 1 else 0) + (if hasMo then 1 else 0)
      if rel = Relation.spouse then (true, "1/2", 1/2)
      else
        (true,
         if hasSp then (if parentCount = 1 then "1/2" else "1/4")
         else (if parentCount = 1 then "1/1" else "1/2"),
         if hasSp then (1/2) / (parentCount : ℚ) else 1 / (parentCount : ℚ))
    else (false, "0", 0)
  else if 0 < livingSiblingCount then
    -- 第三順位：兄弟姊妹
    if (rel = Relation.sibling ∧ status = PersonStatus.alive) ∨
        (rel = Relation.spouse ∧ hasSp = true) then
      let sibCount : Nat := livingSiblingCount
      if rel = Relation.spouse then (true, "1/2", 1/2)
      else
        (true,
         if hasSp then s!"1/{sibCount * 2}" else s!"1/{sibCount}",
         if hasSp then (1/2) / (sibCount : ℚ) else 1 / (sibCount : ℚ))
    else (false, "0", 0)
  else if hasSp = true ∧ rel = Relation.spouse then
    (true, "1/1", 1)
  else (false, "0", 0)

/-- One step of the `allCandidates.map(...)`: spread the person and attach the
computed `(isHeir, share, legalShare)`. -/
def mkHeir (f : Family) (pc : FamilyMember × Relation × String) : Heir :=
  let r := shareOf (livingChildren f).length (hasSpouse f) (hasFather f)
    (hasMother f) (livingSiblings f).length pc.2.1 pc.1.status
  { toFamilyMember := pc.1, relation := pc.2.1, relationLabel := pc.2.2,
    isHeir := r.1, share := r.2.1, legalShare := r.2.2 }

/-- The `heirs` useMemo: resolve every candidate. -/
def heirs (f : Family) : List Heir := (allCandidates f).map (mkHeir f)

/-! ## Deduction pipeline (`autoDeductionAmount`, source lines 745–755) -/

/-- `autoDeductionAmount` from the source: exemption + funeral (+ spouse
deduction if alive) + parentCount·parent + livingChildCount·child. -/
def autoDeductionAmount (f : Family) : ℚ :=
  ESTATE_TAX_EXEMPTION + DEDUCTION_FUNERAL
  + (if f.spouse.status = PersonStatus.alive then DEDUCTION_SPOUSE else 0)
  + (((if f.father.status = PersonStatus.alive then 1 else 0)
      + (if f.mother.status = PersonStatus.alive then 1 else 0) : ℚ)) * DEDUCTION_PARENT
  + ((livingChildren f).length : ℚ) * DEDUCTION_CHILD

/-! ## String helpers for drop-target patterns

`String.prototype.endsWith` and `String.prototype.includes` as used by
`handleDrop` (`targetLocation.endsWith('_spouse') ||
targetLocation.includes('_child_')`), modelled on character lists. -/

/-- Is the first character list a prefix of the second? -/
def listIsPrefixOfB : List Char → List Char → Bool
  | [], _ => true
  | _ :: _, [] => false
  | a :: as, b :: bs => a = b && listIsPrefixOfB as bs

/-- Does `needle` occur as a contiguous run inside the second list? -/
def listContainsB (needle : List Char) : List Char → Bool
  | [] => listIsPrefixOfB needle []
  | a :: hay => listIsPrefixOfB needle (a :: hay) || listContainsB needle hay

/-- `s.endsWith(suffixStr)` of JavaScript. -/
def strEndsWith (s suffixStr : String) : Bool :=
  listIsPrefixOfB suffixStr.data.reverse s.data.reverse

/-- `s.includes(needle)` of JavaScript. -/
def strContains (s needle : String) : Bool :=
  listContainsB needle.data s.data

/-! ## Allocation ledger operations (source lines 768–796, 594–598, 643–646) -/

/-- The asset-state update performed by `handleDrop(e, targetLocation)` when an
asset with id `draggedId` is being dragged: look the target up in the heirs
list, recognize extended zones (`..._spouse` / `..._child_...`), and either
reject (returning the assets unchanged) or set the dragged asset's location to
`targetLocation` verbatim. -/
def handleDropAssets (heirsList : List Heir) (draggedId targetLocation : String)
    (assets : List Asset) : List Asset :=
  let targetHeir := heirsList.find? (fun h => decide (h.id = targetLocation))
  let isExtendedZone := strEndsWith targetLocation "_spouse" ||
    strContains targetLocation "_child_"
  if targetHeir = Option.none ∧ targetLocation ≠ "pool" ∧ isExtendedZone = false then
    assets
  else
    assets.map (fun a => if a.id = draggedId then { a with location := targetLocation } else a)

/-- `handleResetAllocation`: every asset's location becomes `"pool"`. -/
def handleResetAllocationAssets (assets : List Asset) : List Asset :=
  assets.map (fun a => { a with location := "pool" })

/-- A ledger operation: a `handleDrop` (identified by the dragged asset id and
the drop target) or a `handleResetAllocation`. -/
inductive LedgerOp
  | move (draggedId targetLocation : String)
  | reset
deriving DecidableEq

/-- Apply one ledger operation to the asset collection. -/
def applyLedgerOp (heirsList : List Heir) (assets : List Asset) : LedgerOp → List Asset
  | LedgerOp.move d t => handleDropAssets heirsList d t assets
  | LedgerOp.reset => handleResetAllocationAssets assets

/-- Run a sequence of ledger operations. -/
def runLedgerOps (heirsList : List Heir) (assets : List Asset) (ops : List LedgerOp) :
    List Asset :=
  ops.foldl (applyLedgerOp heirsList) assets

/-- `removeChild(id)`: drop the child from the family and send assets located
exactly at `id` back to the pool. -/
def removeChildUpdate (id : String) (f : Family) (assets : List Asset) :
    Family × List Asset :=
  ({ f with children := f.children.filter (fun c => decide (c.id ≠ id)) },
   assets.map (fun a => if a.location = id then { a with location := "pool" } else a))

/-- `removeSibling(id)`: drop the sibling from the family and send assets
located exactly at `id` back to the pool. -/
def removeSiblingUpdate (id : String) (f : Family) (assets : List Asset) :
    Family × List Asset :=
  ({ f with siblings := f.siblings.filter (fun s => decide (s.id ≠ id)) },
   assets.map (fun a => if a.location = id then { a with location := "pool" } else a))

/-! ## Reserved-portion warning (`HeirCard`, source lines 189–198, 1179–1182) -/

/-- `totalReceived` of `HeirCard`: sum of amounts of assets whose location is
exactly the heir's id. -/
def totalReceivedOf (assets : List Asset) (heirId : String) : ℚ :=
  ((assets.filter (fun a => decide (a.location = heirId))).map Asset.amount).sum

/-- `hasAllocationStarted = assets.some(a => a.location !== 'pool')`. -/
def hasAllocationStarted (assets : List Asset) : Bool :=
  assets.any (fun a => decide (a.location ≠ "pool"))

/-- `isUnderReserved` of `HeirCard`: `isHeir && hasAllocationStarted &&
totalReceived < reservedAmount` where `reservedAmount = (totalEstate *
legalShare) / 2` and the `totalEstate` prop is the after-tax estate. -/
def isUnderReserved (h : Heir) (assets : List Asset) (afterTaxEstate : ℚ) : Bool :=
  h.isHeir && hasAllocationStarted assets &&
    decide (totalReceivedOf assets h.id < afterTaxEstate * h.legalShare / 2)

/-! ## Derived definitions used in theorem statements -/

/-- Sum of `legalShare` over the records flagged `isHeir`. -/
def heirShareSum (l : List Heir) : ℚ :=
  ((l.filter (fun h => h.isHeir)).map Heir.legalShare).sum

/-- The active priority class is non-empty: some living child, parent or
sibling, or a living spouse. -/
def activeClassNonempty (f : Family) : Prop :=
  0 < (livingChildren f).length ∨ hasFather f = true ∨ hasMother f = true ∨
    0 < (livingSiblings f).length ∨ hasSpouse f = true

instance (f : Family) : Decidable (activeClassNonempty f) := by
  unfold activeClassNonempty; infer_instance

/-! ## Concrete example inputs used by witnesses and counterexamples -/

/-- Family with one living child and a living father (no spouse, no mother, no
siblings): the children class is active, so the father is a non-heir entry. -/
def FC1 : Family :=
  { self := ⟨"", Gender.male⟩,
    spouse := { id := "spouse", name := "配偶", gender := Gender.female, status := PersonStatus.none },
    father := { id := "father", name := "父", gender := Gender.male, status := PersonStatus.alive },
    mother := { id := "mother", name := "母", gender := Gender.female, status := PersonStatus.none },
    children := [{ id := "c1", name := "子女 1 ", gender := Gender.male, status := PersonStatus.alive }],
    siblings := [] }

/-- A single cash asset sitting in the pool. -/
def A1 : Asset := { id := "a1", type := AssetType.cash, amount := 1000000, location := "pool" }

/-- Family of the tax scenario: spouse alive, two living children, no living
parents, no siblings. -/
def F5 : Family :=
  { self := ⟨"", Gender.male⟩,
    spouse := { id := "spouse", name := "配偶", gender := Gender.female, status := PersonStatus.alive },
    father := { id := "father", name := "父", gender := Gender.male, status := PersonStatus.none },
    mother := { id := "mother", name := "母", gender := Gender.female, status := PersonStatus.none },
    children := [{ id := "c1", name := "子女 1 ", gender := Gender.male, status := PersonStatus.alive },
                 { id := "c2", name := "子女 2 ", gender := Gender.female, status := PersonStatus.alive }],
    siblings := [] }

/-- An asset allocated to the (dangling) extended-slot location `"c1_spouse"`. -/
def B1 : Asset := { id := "b1", type := AssetType.property, amount := 2000000, location := "c1_spouse" }

/-- An heir record used to exercise the reserved-portion warning. -/
def HH : Heir :=
  { id := "h1", name := "x", gender := Gender.male, status := PersonStatus.alive,
    relation := Relation.child, relationLabel := "子女", isHeir := true,
    share := "1 / 1", legalShare := 1 }

/-! ## Supporting lemmas: tax calculator -/

/-- Closed-form characterization of `calculateInheritanceTax`: the bracket
search resolves to the nested-interval formula of the source's table. -/
theorem calc_tax_eval (x : ℚ) :
    (calculateInheritanceTax x).1 =
      if x ≤ 0 then 0
      else if x ≤ 56210000 then max 0 (x * (1/10) - 0)
      else if x ≤ 112420000 then max 0 (x * (15/100) - 2810500)
      else max 0 (x * (1/5) - 8431500) := by
  by_cases h0 : x ≤ 0
  · simp [calculateInheritanceTax, h0]
  · by_cases h1 : x ≤ 56210000
    · have hf : ESTATE_TAX_BRACKETS.find? (bracketLE x)
          = Option.some ⟨Option.some 56210000, 1/10, 0⟩ := by
        unfold ESTATE_TAX_BRACKETS
        exact List.find?_cons_of_pos _ (by simp [bracketLE, h1])
      simp only [calculateInheritanceTax, hf, Option.getD, if_neg h0, if_pos h1]
    · by_cases h2 : x ≤ 112420000
      · have hf : ESTATE_TAX_BRACKETS.find? (bracketLE x)
            = Option.some ⟨Option.some 112420000, 15/100, 2810500⟩ := by
          unfold ESTATE_TAX_BRACKETS
          rw [List.find?_cons_of_neg _ (by simp [bracketLE, h1])]
          exact List.find?_cons_of_pos _ (by simp [bracketLE, h2])
        simp only [calculateInheritanceTax, hf, Option.getD,
          if_neg h0, if_neg h1, if_pos h2]
      · have hf : ESTATE_TAX_BRACKETS.find? (bracketLE x)
            = Option.some ⟨Option.none, 1/5, 8431500⟩ := by
          unfold ESTATE_TAX_BRACKETS
          rw [List.find?_cons_of_neg _ (by simp [bracketLE, h1]),
            List.find?_cons_of_neg _ (by simp [bracketLE, h2])]
          exact List.find?_cons_of_pos _ (by simp [bracketLE])
        simp only [calculateInheritanceTax, hf, Option.getD,
          if_neg h0, if_neg h1, if_neg h2]

/-! ## C4 -/

/-- C4: the estate tax is monotonically non-decreasing in the taxable amount,
and it is continuous at both bracket boundaries: taxable 56,210,000 yields the
same tax under the 10% formula (bracket 0) and the 15% quick-deduction formula
(bracket 1), and taxable 112,420,000 yields the same tax under the 15%
(bracket 1) and 20% (bracket 2) formulas; `calculateInheritanceTax` agrees
with the lower bracket's formula at each boundary. -/
theorem tax_monotone_and_boundary (x y : ℚ) (_hx : 0 ≤ x) (hxy : x ≤ y) :
    (calculateInheritanceTax x).1 ≤ (calculateInheritanceTax y).1
    ∧ taxFormula (ESTATE_TAX_BRACKETS.getD 0 ⟨Option.none, 0, 0⟩) 56210000
        = taxFormula (ESTATE_TAX_BRACKETS.getD 1 ⟨Option.none, 0, 0⟩) 56210000
    ∧ taxFormula (ESTATE_TAX_BRACKETS.getD 1 ⟨Option.none, 0, 0⟩) 112420000
        = taxFormula (ESTATE_TAX_BRACKETS.getD 2 ⟨Option.none, 0, 0⟩) 112420000
    ∧ (calculateInheritanceTax 56210000).1
        = taxFormula (ESTATE_TAX_BRACKETS.getD 0 ⟨Option.none, 0, 0⟩) 56210000
    ∧ (calculateInheritanceTax 112420000).1
        = taxFormula (ESTATE_TAX_BRACKETS.getD 1 ⟨Option.none, 0, 0⟩) 112420000 := by
  refine ⟨?_, ?_, ?_, ?_, ?_⟩
  · rw [calc_tax_eval, calc_tax_eval]
    split_ifs
    all_goals first
      | exact le_refl _
      | exact le_max_left 0 _
      | (exfalso; linarith)
      | (exact max_le_max le_rfl (by linarith))
  · norm_num [taxFormula, ESTATE_TAX_BRACKETS]
  · norm_num [taxFormula, ESTATE_TAX_BRACKETS]
  · rw [calc_tax_eval]; norm_num [taxFormula, ESTATE_TAX_BRACKETS]
  · rw [calc_tax_eval]; norm_num [taxFormula, ESTATE_TAX_BRACKETS]

/-- Witness for C4 at the concrete input `x = 0, y = 0`. -/
theorem tax_monotone_and_boundary_witness :
    (calculateInheritanceTax 0).1 ≤ (calculateInheritanceTax 0).1
    ∧ taxFormula (ESTATE_TAX_BRACKETS.getD 0 ⟨Option.none, 0, 0⟩) 56210000
        = taxFormula (ESTATE_TAX_BRACKETS.getD 1 ⟨Option.none, 0, 0⟩) 56210000
    ∧ taxFormula (ESTATE_TAX_BRACKETS.getD 1 ⟨Option.none, 0, 0⟩) 112420000
        = taxFormula (ESTATE_TAX_BRACKETS.getD 2 ⟨Option.none, 0, 0⟩) 112420000
    ∧ (calculateInheritanceTax 56210000).1
        = taxFormula (ESTATE_TAX_BRACKETS.getD 0 ⟨Option.none, 0, 0⟩) 56210000
    ∧ (calculateInheritanceTax 112420000).1
        = taxFormula (ESTATE_TAX_BRACKETS.getD 1 ⟨Option.none, 0, 0⟩) 112420000 :=
  tax_monotone_and_boundary 0 0 (le_refl 0) (le_refl 0)

/-! ## C5 -/

/-- C5: with total estate 50,000,000, spouse alive, two living children, no
living parents and no manual other deduction, the deduction pipeline gives
21,360,000, the taxable amount is 28,640,000, and the tax is 2,864,000 at
marginal rate 10%. -/
theorem tax_scenario_50M :
    autoDeductionAmount F5 = 13330000 + 1380000 + 5530000 + 2 * 560000
    ∧ autoDeductionAmount F5 = 21360000
    ∧ max 0 (50000000 - autoDeductionAmount F5) = 28640000
    ∧ (calculateInheritanceTax (max 0 (50000000 - autoDeductionAmount F5))).1 = 2864000
    ∧ (calculateInheritanceTax (max 0 (50000000 - autoDeductionAmount F5))).2 = 1/10 := by
  have hded : autoDeductionAmount F5 = 21360000 := by
    have hne : ¬ (PersonStatus.none = PersonStatus.alive) := by decide
    simp only [autoDeductionAmount, livingChildren, F5, if_neg hne]
    norm_num [ESTATE_TAX_EXEMPTION, DEDUCTION_FUNERAL, DEDUCTION_SPOUSE,
      DEDUCTION_PARENT, DEDUCTION_CHILD]
  have htaxable : max 0 (50000000 - autoDeductionAmount F5) = (28640000 : ℚ) := by
    rw [hded]; norm_num
  have hb : bracketLE (28640000 : ℚ) ⟨Option.some 56210000, 1/10, 0⟩ = true := by
    norm_num [bracketLE]
  refine ⟨by rw [hded]; norm_num, hded, htaxable, ?_, ?_⟩
  · rw [htaxable, calc_tax_eval]; norm_num
  · rw [htaxable]
    simp only [calculateInheritanceTax, ESTATE_TAX_BRACKETS,
      List.find?_cons_of_pos _ hb]
    norm_num

/-! ## Supporting lemmas: ledger operations -/

/-- Mapping an asset transformation that fixes a field leaves that field's
column unchanged. -/
theorem map_map_field {α : Type} (g : Asset → Asset) (p : Asset → α)
    (hp : ∀ a, p (g a) = p a) :
    ∀ assets : List Asset, (assets.map g).map p = assets.map p
  | [] => rfl
  | a :: l => by simp only [List.map_cons, hp a, map_map_field g p hp l]

/-- Every ledger operation preserves the amount column and the id column. -/
theorem applyLedgerOp_preserves (hl : List Heir) (assets : List Asset) (op : LedgerOp) :
    (applyLedgerOp hl assets op).map Asset.amount = assets.map Asset.amount
    ∧ (applyLedgerOp hl assets op).map Asset.id = assets.map Asset.id := by
  cases op with
  | move d t =>
      simp only [applyLedgerOp, handleDropAssets]
      split
      · exact ⟨rfl, rfl⟩
      · constructor
        · apply map_map_field; intro a; by_cases h : a.id = d <;> simp [h]
        · apply map_map_field; intro a; by_cases h : a.id = d <;> simp [h]
  | reset =>
      simp only [applyLedgerOp, handleResetAllocationAssets]
      exact ⟨map_map_field (fun a => { a with location := "pool" }) Asset.amount
          (fun a => rfl) assets,
        map_map_field (fun a => { a with location := "pool" }) Asset.id
          (fun a => rfl) assets⟩

/-! ## C6 -/

/-- C6: under any sequence of `handleDrop` / `handleResetAllocation` calls the
amount column (hence the total Σ amount) and the id column (hence the set of
assets: none created or destroyed) are invariant, and the collection keeps its
length.  Each `Asset` carries exactly one `location` field by construction of
the data model, so every asset has exactly one location at all times. -/
theorem asset_conservation (hl : List Heir) (assets : List Asset) (ops : List LedgerOp) :
    ((runLedgerOps hl assets ops).map Asset.amount).sum = (assets.map Asset.amount).sum
    ∧ (runLedgerOps hl assets ops).map Asset.amount = assets.map Asset.amount
    ∧ (runLedgerOps hl assets ops).map Asset.id = assets.map Asset.id
    ∧ (runLedgerOps hl assets ops).length = assets.length := by
  induction ops generalizing assets with
  | nil => exact ⟨rfl, rfl, rfl, rfl⟩
  | cons op ops ih =>
      have h := applyLedgerOp_preserves hl assets op
      have h2 := ih (applyLedgerOp hl assets op)
      have hstep : runLedgerOps hl assets (op :: ops)
          = runLedgerOps hl (applyLedgerOp hl assets op) ops := rfl
      rw [hstep]
      have hm : (runLedgerOps hl (applyLedgerOp hl assets op) ops).map Asset.amount
          = assets.map Asset.amount := h2.2.1.trans h.1
      have hi : (runLedgerOps hl (applyLedgerOp hl assets op) ops).map Asset.id
          = assets.map Asset.id := h2.2.2.1.trans h.2
      refine ⟨by rw [hm], hm, hi, ?_⟩
      have := congrArg List.length hm
      simpa using this

/-! ## C9 -/

/-- C9: `handleDrop` accepts any target string ending in `"_spouse"` or
containing `"_child_"` and stores it verbatim as the asset's location,
validating nothing about the prefix (the heirs list is arbitrary here). -/
theorem extended_zone_accepted (hl : List Heir) (assets : List Asset) (d t : String)
    (h : strEndsWith t "_spouse" = true ∨ strContains t "_child_" = true) :
    handleDropAssets hl d t assets
      = assets.map (fun a => if a.id = d then { a with location := t } else a) := by
  unfold handleDropAssets
  rcases h with h | h <;> simp [h]

/-- Witness for C9: the target `"xyz_spouse"` names no existing heir of the
concrete family (whose heirs are `father` and `c1`), yet the drop succeeds and
stores the string verbatim. -/
theorem extended_zone_accepted_witness :
    handleDropAssets (heirs FC1) "a1" "xyz_spouse" [A1]
      = [{ A1 with location := "xyz_spouse" }] := by
  rw [extended_zone_accepted (heirs FC1) [A1] "a1" "xyz_spouse" (Or.inl (by decide))]
  decide

/-! ## C1 -/

/-- C1 counterexample: in the concrete family `FC1` the father is returned by
the resolver with `isHeir = false`, yet dropping the pool asset `a1` onto the
target `"father"` succeeds: the asset's location changes from `"pool"` to
`"father"`.  The claim's rejection of non-heir person targets is false on the
code. -/
theorem nonheir_drop_accepted_cex :
    ((heirs FC1).map (fun h => (h.id, h.isHeir)) = [("father", false), ("c1", true)])
    ∧ A1.location = "pool"
    ∧ handleDropAssets (heirs FC1) "a1" "father" [A1] = [{ A1 with location := "father" }]
    ∧ { A1 with location := "father" } ≠ A1 :=
  ⟨by decide, by decide, by decide, by decide⟩

/-- C1 (amended): `handleDrop` relocates the dragged asset onto any target
that is the id of *any* person returned by the resolver — regardless of that
person's `isHeir` flag; it rejects (no-op) exactly the targets that match no
returned person, are not `"pool"`, and are not extended-zone patterns. -/
theorem handleDrop_accepts_any_listed_person (f : Family) (assets : List Asset)
    (d t : String) :
    ((∃ hr ∈ heirs f, hr.id = t) →
      handleDropAssets (heirs f) d t assets
        = assets.map (fun a => if a.id = d then { a with location := t } else a))
    ∧ (((heirs f).find? (fun hr => decide (hr.id = t)) = Option.none ∧ t ≠ "pool"
          ∧ (strEndsWith t "_spouse" || strContains t "_child_") = false) →
      handleDropAssets (heirs f) d t assets = assets) := by
  constructor
  · rintro ⟨hr, hmem, hid⟩
    have hfind : (heirs f).find? (fun h => decide (h.id = t)) ≠ Option.none := by
      rw [Ne, List.find?_eq_none]
      push_neg
      exact ⟨hr, hmem, by simp [hid]⟩
    unfold handleDropAssets
    rw [if_neg]
    intro hcon
    exact hfind hcon.1
  · rintro ⟨h1, h2, h3⟩
    unfold handleDropAssets
    rw [if_pos ⟨h1, h2, h3⟩]

/-- Witness for C1 (amended): dropping onto the listed (non-heir) father
relocates the asset. -/
theorem handleDrop_accepts_any_listed_person_witness :
    handleDropAssets (heirs FC1) "a1" "father" [A1] = [{ A1 with location := "father" }] := by
  rw [(handleDrop_accepts_any_listed_person FC1 [A1] "a1" "father").1 (by decide)]
  decide

/-! ## C10 -/

/-- A string strictly grows when a non-empty literal is appended, so extended
slot locations differ from the bare id. -/
theorem append_suffix_ne (s t : String) (ht : t.length ≠ 0) : s ++ t ≠ s := by
  intro h
  have hlen := congrArg String.length h
  rw [String.length_append] at hlen
  omega

/-- C10: `removeChild(id)` sends exactly the assets located at `id` back to
the pool, leaves every other asset (id, amount, type, name columns and any
asset whose location differs from `id` — in particular assets parked in the
removed child's extended slots `id_spouse` / `id_child_k`, whose locations
dangle) unchanged, and `removeSibling` performs the identical asset update. -/
theorem removeChild_assets_frame (id : String) (f : Family) (assets : List Asset) :
    ((removeChildUpdate id f assets).2.map Asset.id = assets.map Asset.id
      ∧ (removeChildUpdate id f assets).2.map Asset.amount = assets.map Asset.amount
      ∧ (removeChildUpdate id f assets).2.map Asset.type = assets.map Asset.type
      ∧ (removeChildUpdate id f assets).2.map Asset.name = assets.map Asset.name)
    ∧ (∀ a ∈ assets,
        (a.location = id → { a with location := "pool" } ∈ (removeChildUpdate id f assets).2)
        ∧ (a.location ≠ id → a ∈ (removeChildUpdate id f assets).2))
    ∧ (∀ a ∈ assets, ∀ k : Nat,
        (a.location = id ++ "_spouse" ∨ a.location = id ++ "_child_" ++ toString k) →
        a ∈ (removeChildUpdate id f assets).2)
    ∧ (removeSiblingUpdate id f assets).2 = (removeChildUpdate id f assets).2 := by
  refine ⟨⟨?_, ?_, ?_, ?_⟩, ?_, ?_, rfl⟩
  · apply map_map_field; intro a; by_cases h : a.location = id <;> simp [h]
  · apply map_map_field; intro a; by_cases h : a.location = id <;> simp [h]
  · apply map_map_field; intro a; by_cases h : a.location = id <;> simp [h]
  · apply map_map_field; intro a; by_cases h : a.location = id <;> simp [h]
  · intro a ha
    constructor
    · intro h
      exact List.mem_map.mpr ⟨a, ha, by simp [removeChildUpdate, h]⟩
    · intro h
      exact List.mem_map.mpr ⟨a, ha, by simp [removeChildUpdate, h]⟩
  · intro a ha k hloc
    have hne : a.location ≠ id := by
      rcases hloc with h | h
      · rw [h]
        exact append_suffix_ne _ _ (by decide)
      · rw [h, String.append_assoc]
        apply append_suffix_ne
        rw [String.length_append]
        have : ("_child_" : String).length = 7 := by decide
        omega
    exact List.mem_map.mpr ⟨a, ha, by simp [removeChildUpdate, hne]⟩

/-- Witness for C10: removing child `c1` leaves the asset parked at the
extended slot `"c1_spouse"` exactly where it was (its location dangles). -/
theorem removeChild_assets_frame_witness :
    B1 ∈ (removeChildUpdate "c1" FC1 [B1]).2 :=
  (removeChild_assets_frame "c1" FC1 [B1]).2.2.1 B1 (by decide) 0 (Or.inl (by decide))

/-! ## C7 -/

/-- C7: the under-reserved flag is true iff the heir is a legal heir, some
asset in the whole ledger has left the pool, and the sum of amounts located
exactly at the heir's id (extended slots excluded) is strictly below
`legalShare/2 · afterTaxEstate`; while every asset is in the pool no heir is
flagged. -/
theorem isUnderReserved_iff (h : Heir) (assets : List Asset) (afterTaxEstate : ℚ) :
    (isUnderReserved h assets afterTaxEstate = true ↔
      (h.isHeir = true ∧ (∃ a ∈ assets, a.location ≠ "pool")
        ∧ totalReceivedOf assets h.id < h.legalShare / 2 * afterTaxEstate))
    ∧ ((∀ a ∈ assets, a.location = "pool") →
        isUnderReserved h assets afterTaxEstate = false) := by
  have hcomm : h.legalShare / 2 * afterTaxEstate = afterTaxEstate * h.legalShare / 2 := by
    ring
  constructor
  · rw [hcomm]
    simp [isUnderReserved, hasAllocationStarted, List.any_eq_true, and_assoc]
  · intro hall
    have hstart : hasAllocationStarted assets = false := by
      simp only [hasAllocationStarted, List.any_eq_false, decide_eq_true_eq]
      intro a ha
      simp [hall a ha]
    simp [isUnderReserved, hstart]

/-- Witness for C7: with the single asset still in the pool, the heir `HH` is
not flagged. -/
theorem isUnderReserved_iff_witness : isUnderReserved HH [A1] 100 = false :=
  (isUnderReserved_iff HH [A1] 100).2 (by decide)

/-! ## Supporting lemmas: heir resolver -/

theorem mkHeir_member (f : Family) (pc : FamilyMember × Relation × String) :
    (mkHeir f pc).toFamilyMember = pc.1 := rfl

theorem mkHeir_relation (f : Family) (pc : FamilyMember × Relation × String) :
    (mkHeir f pc).relation = pc.2.1 := rfl

theorem mkHeir_status (f : Family) (pc : FamilyMember × Relation × String) :
    (mkHeir f pc).status = pc.1.status := rfl

theorem mkHeir_isHeir (f : Family) (pc : FamilyMember × Relation × String) :
    (mkHeir f pc).isHeir = (shareOf (livingChildren f).length (hasSpouse f)
      (hasFather f) (hasMother f) (livingSiblings f).length pc.2.1 pc.1.status).1 := rfl

theorem mkHeir_legalShare (f : Family) (pc : FamilyMember × Relation × String) :
    (mkHeir f pc).legalShare = (shareOf (livingChildren f).length (hasSpouse f)
      (hasFather f) (hasMother f) (livingSiblings f).length pc.2.1 pc.1.status).2.2 := rfl

/-- `heirs` decomposes into the five candidate segments. -/
theorem heirs_eq_append (f : Family) :
    heirs f =
      (if f.spouse.status ≠ PersonStatus.none
        then [mkHeir f (f.spouse, Relation.spouse, "配偶")] else [])
      ++ (if f.father.status ≠ PersonStatus.none
        then [mkHeir f (f.father, Relation.parent, "父親")] else [])
      ++ (if f.mother.status ≠ PersonStatus.none
        then [mkHeir f (f.mother, Relation.parent, "母親")] else [])
      ++ f.children.map (fun c => mkHeir f (c, Relation.child, "子女"))
      ++ f.siblings.map (fun s => mkHeir f (s, Relation.sibling, "兄弟姊妹")) := by
  unfold heirs allCandidates
  simp only [List.map_append, List.map_map, apply_ite (List.map (mkHeir f)),
    List.map_cons, List.map_nil]
  rfl

/-! ### Branch-wise evaluation of `shareOf` -/

/-- Children class active, child candidate. -/
theorem shareOf1_child (n : Nat) (hn : 0 < n) (hs hf hm : Bool) (m : Nat)
    (st : PersonStatus) :
    (shareOf n hs hf hm m Relation.child st).1 = decide (st = PersonStatus.alive)
    ∧ (shareOf n hs hf hm m Relation.child st).2.2
      = if st = PersonStatus.alive
        then 1 / ((n + (if hs then 1 else 0) : ℕ) : ℚ) else 0 := by
  unfold shareOf
  rw [if_pos hn]
  by_cases hst : st = PersonStatus.alive <;> simp [hst]

/-- Children class active, spouse candidate. -/
theorem shareOf1_spouse (n : Nat) (hn : 0 < n) (hs hf hm : Bool) (m : Nat)
    (st : PersonStatus) :
    (shareOf n hs hf hm m Relation.spouse st).1 = hs
    ∧ (shareOf n hs hf hm m Relation.spouse st).2.2
      = if hs = true then 1 / ((n + 1 : ℕ) : ℚ) else 0 := by
  unfold shareOf
  rw [if_pos hn]
  cases hs <;> simp

/-- Children class active: parents and siblings are skipped entirely. -/
theorem shareOf1_skip (n : Nat) (hn : 0 < n) (hs hf hm : Bool) (m : Nat)
    (rel : Relation) (hrel : rel = Relation.parent ∨ rel = Relation.sibling)
    (st : PersonStatus) :
    (shareOf n hs hf hm m rel st).1 = false
    ∧ (shareOf n hs hf hm m rel st).2.2 = 0 := by
  unfold shareOf
  rw [if_pos hn]
  rcases hrel with hrel | hrel <;> subst hrel <;> simp

/-- Parent class active, spouse candidate. -/
theorem shareOf2_spouse (hs hf hm : Bool) (m : Nat) (st : PersonStatus)
    (hp : hf = true ∨ hm = true) :
    (shareOf 0 hs hf hm m Relation.spouse st).1 = hs
    ∧ (shareOf 0 hs hf hm m Relation.spouse st).2.2
      = if hs = true then 1/2 else 0 := by
  unfold shareOf
  rw [if_neg (by omega), if_pos hp]
  cases hs <;> simp

/-- Parent class active, parent candidate. -/
theorem shareOf2_parent (hs hf hm : Bool) (m : Nat) (st : PersonStatus)
    (hp : hf = true ∨ hm = true) :
    (shareOf 0 hs hf hm m Relation.parent st).1 = decide (st = PersonStatus.alive)
    ∧ (shareOf 0 hs hf hm m Relation.parent st).2.2
      = if st = PersonStatus.alive
        then (if hs = true
          then (1/2) / (((if hf then 1 else 0) + (if hm then 1 else 0) : ℕ) : ℚ)
          else 1 / (((if hf then 1 else 0) + (if hm then 1 else 0) : ℕ) : ℚ))
        else 0 := by
  unfold shareOf
  rw [if_neg (by omega), if_pos hp]
  by_cases hst : st = PersonStatus.alive <;> cases hs <;> simp [hst]

/-- Parent class active: children and siblings get nothing. -/
theorem shareOf2_skip (hs hf hm : Bool) (m : Nat) (rel : Relation)
    (hrel : rel = Relation.child ∨ rel = Relation.sibling) (st : PersonStatus)
    (hp : hf = true ∨ hm = true) :
    (shareOf 0 hs hf hm m rel st).1 = false
    ∧ (shareOf 0 hs hf hm m rel st).2.2 = 0 := by
  unfold shareOf
  rw [if_neg (by omega), if_pos hp]
  rcases hrel with hrel | hrel <;> subst hrel <;> simp

/-- Sibling class active, spouse candidate. -/
theorem shareOf3_spouse (hs : Bool) (m : Nat) (st : PersonStatus) (hm3 : 0 < m) :
    (shareOf 0 hs false false m Relation.spouse st).1 = hs
    ∧ (shareOf 0 hs false false m Relation.spouse st).2.2
      = if hs = true then 1/2 else 0 := by
  unfold shareOf
  rw [if_neg (by omega), if_neg (by simp), if_pos hm3]
  cases hs <;> simp

/-- Sibling class active, sibling candidate. -/
theorem shareOf3_sibling (hs : Bool) (m : Nat) (st : PersonStatus) (hm3 : 0 < m) :
    (shareOf 0 hs false false m Relation.sibling st).1 = decide (st = PersonStatus.alive)
    ∧ (shareOf 0 hs false false m Relation.sibling st).2.2
      = if st = PersonStatus.alive
        then (if hs = true then (1/2) / (m : ℚ) else 1 / (m : ℚ))
        else 0 := by
  unfold shareOf
  rw [if_neg (by omega), if_neg (by simp), if_pos hm3]
  by_cases hst : st = PersonStatus.alive <;> cases hs <;> simp [hst]

/-- Sibling class active: children and parents get nothing. -/
theorem shareOf3_skip (hs : Bool) (m : Nat) (rel : Relation)
    (hrel : rel = Relation.child ∨ rel = Relation.parent) (st : PersonStatus)
    (hm3 : 0 < m) :
    (shareOf 0 hs false false m rel st).1 = false
    ∧ (shareOf 0 hs false false m rel st).2.2 = 0 := by
  unfold shareOf
  rw [if_neg (by omega), if_neg (by simp), if_pos hm3]
  rcases hrel with hrel | hrel <;> subst hrel <;> simp

/-- Spouse-alone branch: full evaluation. -/
theorem shareOf4 (hs : Bool) (rel : Relation) (st : PersonStatus) :
    shareOf 0 hs false false 0 rel st
      = if hs = true ∧ rel = Relation.spouse then (true, "1/1", 1)
        else (false, "0", 0) := by
  unfold shareOf
  simp

/-! ### Sums of `legalShare` over heir segments -/

theorem heirShareSum_nil : heirShareSum [] = 0 := rfl

theorem heirShareSum_append (l₁ l₂ : List Heir) :
    heirShareSum (l₁ ++ l₂) = heirShareSum l₁ + heirShareSum l₂ := by
  simp [heirShareSum, List.filter_append]

theorem heirShareSum_cons (h : Heir) (l : List Heir) :
    heirShareSum (h :: l)
      = (if h.isHeir = true then h.legalShare else 0) + heirShareSum l := by
  by_cases hh : h.isHeir = true <;> simp [heirShareSum, List.filter_cons, hh]

theorem heirShareSum_singleton (h : Heir) :
    heirShareSum [h] = if h.isHeir = true then h.legalShare else 0 := by
  rw [heirShareSum_cons, heirShareSum_nil, add_zero]

/-- A segment all of whose entries are non-heirs contributes nothing. -/
theorem heirShareSum_map_zero {α : Type} (l : List α) (g : α → Heir)
    (hg : ∀ x ∈ l, (g x).isHeir = false) : heirShareSum (l.map g) = 0 := by
  induction l with
  | nil => rfl
  | cons a l ih =>
      rw [List.map_cons, heirShareSum_cons,
        if_neg (by rw [hg a (List.mem_cons_self a l)]; simp),
        ih (fun x hx => hg x (List.mem_cons_of_mem a hx)), add_zero]

/-- A segment whose entries are heirs exactly when alive, each alive entry
carrying share `q`, sums to (number of living members) · q. -/
theorem heirShareSum_map_alive (l : List FamilyMember) (g : FamilyMember → Heir)
    (q : ℚ)
    (hg : ∀ x ∈ l, (g x).isHeir = decide (x.status = PersonStatus.alive)
      ∧ (x.status = PersonStatus.alive → (g x).legalShare = q)) :
    heirShareSum (l.map g)
      = ((l.filter (fun c => decide (c.status = PersonStatus.alive))).length : ℚ) * q := by
  induction l with
  | nil => simp [heirShareSum]
  | cons a l ih =>
      obtain ⟨h1, h2⟩ := hg a (List.mem_cons_self a l)
      have ih' := ih (fun x hx => hg x (List.mem_cons_of_mem a hx))
      by_cases ha : a.status = PersonStatus.alive
      · rw [List.map_cons, heirShareSum_cons, if_pos (by rw [h1]; simp [ha]),
          h2 ha, ih', List.filter_cons, if_pos (by simp [ha]), List.length_cons]
        push_cast
        ring
      · rw [List.map_cons, heirShareSum_cons, if_neg (by rw [h1]; simp [ha]),
          ih', List.filter_cons, if_neg (by simp [ha]), zero_add]

/-- All-false segments filter away completely. -/
theorem filter_heirs_map_nil {α : Type} (l : List α) (g : α → Heir)
    (hg : ∀ x ∈ l, (g x).isHeir = false) :
    (l.map g).filter (fun h => h.isHeir) = [] := by
  induction l with
  | nil => rfl
  | cons a l ih =>
      rw [List.map_cons, List.filter_cons,
        if_neg (by rw [hg a (List.mem_cons_self a l)]; simp),
        ih (fun x hx => hg x (List.mem_cons_of_mem a hx))]

/-- A non-heir record produced by `shareOf` always carries `legalShare = 0`. -/
theorem shareOf_false_zero (n : Nat) (hs hf hm : Bool) (m : Nat) (rel : Relation)
    (st : PersonStatus) (h : (shareOf n hs hf hm m rel st).1 = false) :
    (shareOf n hs hf hm m rel st).2.2 = 0 := by
  unfold shareOf at h ⊢
  split_ifs at h ⊢ <;> simp_all

/-! ### Share-sum case analysis over the four priority classes -/

/-- Children class active: all statutory shares sum to 1. -/
theorem sum_case1 (f : Family) (hn : 0 < (livingChildren f).length) :
    heirShareSum (heirs f) = 1 := by
  rw [heirs_eq_append, heirShareSum_append, heirShareSum_append,
    heirShareSum_append, heirShareSum_append]
  have hS : heirShareSum (if f.spouse.status ≠ PersonStatus.none
      then [mkHeir f (f.spouse, Relation.spouse, "配偶")] else [])
      = if hasSpouse f = true
        then 1 / (((livingChildren f).length + 1 : ℕ) : ℚ) else 0 := by
    by_cases hpres : f.spouse.status ≠ PersonStatus.none
    · rw [if_pos hpres, heirShareSum_singleton, mkHeir_isHeir, mkHeir_legalShare,
        (shareOf1_spouse _ hn _ _ _ _ _).1, (shareOf1_spouse _ hn _ _ _ _ _).2]
      by_cases hsp : hasSpouse f = true <;> simp [hsp]
    · rw [if_neg hpres, heirShareSum_nil]
      push_neg at hpres
      have hz : hasSpouse f = false := by simp [hasSpouse, hpres]
      rw [hz]
      simp
  have hF : heirShareSum (if f.father.status ≠ PersonStatus.none
      then [mkHeir f (f.father, Relation.parent, "父親")] else []) = 0 := by
    by_cases hpres : f.father.status ≠ PersonStatus.none
    · rw [if_pos hpres, heirShareSum_singleton, mkHeir_isHeir,
        (shareOf1_skip _ hn _ _ _ _ _ (Or.inl rfl) _).1]
      simp
    · rw [if_neg hpres, heirShareSum_nil]
  have hM : heirShareSum (if f.mother.status ≠ PersonStatus.none
      then [mkHeir f (f.mother, Relation.parent, "母親")] else []) = 0 := by
    by_cases hpres : f.mother.status ≠ PersonStatus.none
    · rw [if_pos hpres, heirShareSum_singleton, mkHeir_isHeir,
        (shareOf1_skip _ hn _ _ _ _ _ (Or.inl rfl) _).1]
      simp
    · rw [if_neg hpres, heirShareSum_nil]
  have hC : heirShareSum (f.children.map (fun c => mkHeir f (c, Relation.child, "子女")))
      = (((livingChildren f).length : ℕ) : ℚ)
        * (1 / (((livingChildren f).length + (if hasSpouse f then 1 else 0) : ℕ) : ℚ)) := by
    rw [heirShareSum_map_alive _ _
      (1 / (((livingChildren f).length + (if hasSpouse f then 1 else 0) : ℕ) : ℚ))]
    · rfl
    · intro x hx
      refine ⟨?_, ?_⟩
      · rw [mkHeir_isHeir]
        exact (shareOf1_child _ hn _ _ _ _ _).1
      · intro hal
        rw [mkHeir_legalShare, (shareOf1_child _ hn _ _ _ _ _).2, if_pos hal]
  have hSi : heirShareSum (f.siblings.map
      (fun s => mkHeir f (s, Relation.sibling, "兄弟姊妹"))) = 0 := by
    apply heirShareSum_map_zero
    intro x hx
    rw [mkHeir_isHeir]
    exact (shareOf1_skip _ hn _ _ _ _ _ (Or.inr rfl) _).1
  rw [hS, hF, hM, hC, hSi]
  by_cases hsp : hasSpouse f = true
  · rw [if_pos hsp, hsp]
    have hne : (0 : ℚ) < (((livingChildren f).length + 1 : ℕ) : ℚ) := by
      exact_mod_cast Nat.succ_pos (livingChildren f).length
    simp only [if_true]
    push_cast
    field_simp
    ring
  · rw [if_neg hsp]
    have hz : hasSpouse f = false := by
      revert hsp; cases hasSpouse f <;> simp
    rw [hz]
    have hne : ((livingChildren f).length : ℚ) ≠ 0 := by
      exact_mod_cast Nat.pos_iff_ne_zero.mp hn
    simp only [Bool.false_eq_true, if_false]
    push_cast
    field_simp

/-- Parent class active: all statutory shares sum to 1. -/
theorem sum_case2 (f : Family) (hn : (livingChildren f).length = 0)
    (hp : hasFather f = true ∨ hasMother f = true) :
    heirShareSum (heirs f) = 1 := by
  rw [heirs_eq_append, heirShareSum_append, heirShareSum_append,
    heirShareSum_append, heirShareSum_append]
  have hS : heirShareSum (if f.spouse.status ≠ PersonStatus.none
      then [mkHeir f (f.spouse, Relation.spouse, "配偶")] else [])
      = if hasSpouse f = true then (1/2 : ℚ) else 0 := by
    by_cases hpres : f.spouse.status ≠ PersonStatus.none
    · rw [if_pos hpres, heirShareSum_singleton, mkHeir_isHeir, mkHeir_legalShare, hn,
        (shareOf2_spouse _ _ _ _ _ hp).1, (shareOf2_spouse _ _ _ _ _ hp).2]
      by_cases hsp : hasSpouse f = true <;> simp [hsp]
    · rw [if_neg hpres, heirShareSum_nil]
      push_neg at hpres
      have hz : hasSpouse f = false := by simp [hasSpouse, hpres]
      rw [hz]
      simp
  have hF : heirShareSum (if f.father.status ≠ PersonStatus.none
      then [mkHeir f (f.father, Relation.parent, "父親")] else [])
      = if hasFather f = true
        then (if hasSpouse f = true
          then (1/2) / (((if hasFather f then 1 else 0) + (if hasMother f then 1 else 0) : ℕ) : ℚ)
          else 1 / (((if hasFather f then 1 else 0) + (if hasMother f then 1 else 0) : ℕ) : ℚ))
        else 0 := by
    cases hfa : f.father.status with
    | none =>
        rw [if_neg (by simp [hfa]), heirShareSum_nil]
        have hz : hasFather f = false := by simp [hasFather, hfa]
        rw [hz]
        simp
    | alive =>
        rw [if_pos (by simp [hfa]), heirShareSum_singleton, mkHeir_isHeir,
          mkHeir_legalShare, hn]
        have hT : hasFather f = true := by simp [hasFather, hfa]
        rw [(shareOf2_parent _ _ _ _ _ hp).1, (shareOf2_parent _ _ _ _ _ hp).2, hfa, hT]
        simp
    | deceased =>
        rw [if_pos (by simp [hfa]), heirShareSum_singleton, mkHeir_isHeir, hn,
          (shareOf2_parent _ _ _ _ _ hp).1, hfa]
        have hz : hasFather f = false := by simp [hasFather, hfa]
        rw [hz]
        simp
  have hM : heirShareSum (if f.mother.status ≠ PersonStatus.none
      then [mkHeir f (f.mother, Relation.parent, "母親")] else [])
      = if hasMother f = true
        then (if hasSpouse f = true
          then (1/2) / (((if hasFather f then 1 else 0) + (if hasMother f then 1 else 0) : ℕ) : ℚ)
          else 1 / (((if hasFather f then 1 else 0) + (if hasMother f then 1 else 0) : ℕ) : ℚ))
        else 0 := by
    cases hmo : f.mother.status with
    | none =>
        rw [if_neg (by simp [hmo]), heirShareSum_nil]
        have hz : hasMother f = false := by simp [hasMother, hmo]
        rw [hz]
        simp
    | alive =>
        rw [if_pos (by simp [hmo]), heirShareSum_singleton, mkHeir_isHeir,
          mkHeir_legalShare, hn]
        have hT : hasMother f = true := by simp [hasMother, hmo]
        rw [(shareOf2_parent _ _ _ _ _ hp).1, (shareOf2_parent _ _ _ _ _ hp).2, hmo, hT]
        simp
    | deceased =>
        rw [if_pos (by simp [hmo]), heirShareSum_singleton, mkHeir_isHeir, hn,
          (shareOf2_parent _ _ _ _ _ hp).1, hmo]
        have hz : hasMother f = false := by simp [hasMother, hmo]
        rw [hz]
        simp
  have hC : heirShareSum (f.children.map (fun c => mkHeir f (c, Relation.child, "子女"))) = 0 := by
    apply heirShareSum_map_zero
    intro x hx
    rw [mkHeir_isHeir, hn]
    exact (shareOf2_skip _ _ _ _ _ (Or.inl rfl) _ hp).1
  have hSi : heirShareSum (f.siblings.map
      (fun s => mkHeir f (s, Relation.sibling, "兄弟姊妹"))) = 0 := by
    apply heirShareSum_map_zero
    intro x hx
    rw [mkHeir_isHeir, hn]
    exact (shareOf2_skip _ _ _ _ _ (Or.inr rfl) _ hp).1
  rw [hS, hF, hM, hC, hSi]
  revert hp
  cases hhf : hasFather f <;> cases hhm : hasMother f <;> cases hhs : hasSpouse f <;>
    intro hp <;>
      first
        | (rcases hp with h | h <;> exact absurd h (by decide))
        | norm_num

/-- Sibling class active: all statutory shares sum to 1. -/
theorem sum_case3 (f : Family) (hn : (livingChildren f).length = 0)
    (hhf : hasFather f = false) (hhm : hasMother f = false)
    (hm3 : 0 < (livingSiblings f).length) :
    heirShareSum (heirs f) = 1 := by
  rw [heirs_eq_append, heirShareSum_append, heirShareSum_append,
    heirShareSum_append, heirShareSum_append]
  have hS : heirShareSum (if f.spouse.status ≠ PersonStatus.none
      then [mkHeir f (f.spouse, Relation.spouse, "配偶")] else [])
      = if hasSpouse f = true then (1/2 : ℚ) else 0 := by
    by_cases hpres : f.spouse.status ≠ PersonStatus.none
    · rw [if_pos hpres, heirShareSum_singleton, mkHeir_isHeir, mkHeir_legalShare, hn,
        hhf, hhm, (shareOf3_spouse _ _ _ hm3).1, (shareOf3_spouse _ _ _ hm3).2]
      by_cases hsp : hasSpouse f = true <;> simp [hsp]
    · rw [if_neg hpres, heirShareSum_nil]
      push_neg at hpres
      have hz : hasSpouse f = false := by simp [hasSpouse, hpres]
      rw [hz]
      simp
  have hF : heirShareSum (if f.father.status ≠ PersonStatus.none
      then [mkHeir f (f.father, Relation.parent, "父親")] else []) = 0 := by
    by_cases hpres : f.father.status ≠ PersonStatus.none
    · rw [if_pos hpres, heirShareSum_singleton, mkHeir_isHeir, hn, hhf, hhm,
        (shareOf3_skip _ _ _ (Or.inr rfl) _ hm3).1]
      simp
    · rw [if_neg hpres, heirShareSum_nil]
  have hM : heirShareSum (if f.mother.status ≠ PersonStatus.none
      then [mkHeir f (f.mother, Relation.parent, "母親")] else []) = 0 := by
    by_cases hpres : f.mother.status ≠ PersonStatus.none
    · rw [if_pos hpres, heirShareSum_singleton, mkHeir_isHeir, hn, hhf, hhm,
        (shareOf3_skip _ _ _ (Or.inr rfl) _ hm3).1]
      simp
    · rw [if_neg hpres, heirShareSum_nil]
  have hC : heirShareSum (f.children.map (fun c => mkHeir f (c, Relation.child, "子女"))) = 0 := by
    apply heirShareSum_map_zero
    intro x hx
    rw [mkHeir_isHeir, hn, hhf, hhm]
    exact (shareOf3_skip _ _ _ (Or.inl rfl) _ hm3).1
  have hSi : heirShareSum (f.siblings.map
      (fun s => mkHeir f (s, Relation.sibling, "兄弟姊妹")))
      = (((livingSiblings f).length : ℕ) : ℚ)
        * (if hasSpouse f = true
          then (1/2) / (((livingSiblings f).length : ℕ) : ℚ)
          else 1 / (((livingSiblings f).length : ℕ) : ℚ)) := by
    rw [heirShareSum_map_alive _ _
      (if hasSpouse f = true
        then (1/2) / (((livingSiblings f).length : ℕ) : ℚ)
        else 1 / (((livingSiblings f).length : ℕ) : ℚ))]
    · rfl
    · intro x hx
      refine ⟨?_, ?_⟩
      · rw [mkHeir_isHeir, hn, hhf, hhm]
        exact (shareOf3_sibling _ _ _ hm3).1
      · intro hal
        rw [mkHeir_legalShare, hn, hhf, hhm, (shareOf3_sibling _ _ _ hm3).2, if_pos hal]
  rw [hS, hF, hM, hC, hSi]
  have hne : ((livingSiblings f).length : ℚ) ≠ 0 := by
    exact_mod_cast Nat.pos_iff_ne_zero.mp hm3
  by_cases hsp : hasSpouse f = true
  · rw [if_pos hsp, if_pos hsp]
    field_simp
    ring
  · rw [if_neg hsp, if_neg hsp]
    field_simp

/-- Spouse-alone class: the filtered heir list is exactly the spouse with
share 1. -/
theorem case4_filter (f : Family) (hn : (livingChildren f).length = 0)
    (hhf : hasFather f = false) (hhm : hasMother f = false)
    (hm0 : (livingSiblings f).length = 0) (hsp : hasSpouse f = true) :
    ((heirs f).filter (fun h => h.isHeir)).map Heir.legalShare = [1] := by
  have hal : f.spouse.status = PersonStatus.alive := by
    have := hsp
    unfold hasSpouse at this
    exact of_decide_eq_true this
  rw [heirs_eq_append]
  rw [List.filter_append, List.filter_append, List.filter_append, List.filter_append]
  have hS : ((if f.spouse.status ≠ PersonStatus.none
      then [mkHeir f (f.spouse, Relation.spouse, "配偶")] else []).filter
        (fun h => h.isHeir))
      = [mkHeir f (f.spouse, Relation.spouse, "配偶")] := by
    rw [if_pos (by simp [hal]), List.filter_cons,
      if_pos (by
        rw [mkHeir_isHeir, hn, hhf, hhm, hm0, shareOf4]
        simp [hsp])]
    rfl
  have hFnil : ((if f.father.status ≠ PersonStatus.none
      then [mkHeir f (f.father, Relation.parent, "父親")] else []).filter
        (fun h => h.isHeir)) = [] := by
    by_cases hpres : f.father.status ≠ PersonStatus.none
    · rw [if_pos hpres, List.filter_cons, if_neg (by
        rw [mkHeir_isHeir, hn, hhf, hhm, hm0, shareOf4]
        simp)]
      rfl
    · rw [if_neg hpres]
      rfl
  have hMnil : ((if f.mother.status ≠ PersonStatus.none
      then [mkHeir f (f.mother, Relation.parent, "母親")] else []).filter
        (fun h => h.isHeir)) = [] := by
    by_cases hpres : f.mother.status ≠ PersonStatus.none
    · rw [if_pos hpres, List.filter_cons, if_neg (by
        rw [mkHeir_isHeir, hn, hhf, hhm, hm0, shareOf4]
        simp)]
      rfl
    · rw [if_neg hpres]
      rfl
  have hCnil : ((f.children.map (fun c => mkHeir f (c, Relation.child, "子女"))).filter
      (fun h => h.isHeir)) = [] := by
    apply filter_heirs_map_nil
    intro x hx
    rw [mkHeir_isHeir, hn, hhf, hhm, hm0, shareOf4]
    simp
  have hSinil : ((f.siblings.map
      (fun s => mkHeir f (s, Relation.sibling, "兄弟姊妹"))).filter
        (fun h => h.isHeir)) = [] := by
    apply filter_heirs_map_nil
    intro x hx
    rw [mkHeir_isHeir, hn, hhf, hhm, hm0, shareOf4]
    simp
  rw [hS, hFnil, hMnil, hCnil, hSinil]
  simp only [List.append_nil, List.nil_append, List.map_cons, List.map_nil]
  rw [mkHeir_legalShare, hn, hhf, hhm, hm0, shareOf4]
  simp [hsp]

/-! ## C2 -/

/-- C2: whenever the active priority class is non-empty, the `legalShare`
values of the `isHeir = true` records sum to exactly 1 (hence within the
stated 1e-9 tolerance); in the spouse-alone case the filtered record list is
exactly a single record with share exactly 1. -/
theorem heir_share_sum_eq_one (f : Family) (hact : activeClassNonempty f) :
    heirShareSum (heirs f) = 1
    ∧ |heirShareSum (heirs f) - 1| ≤ 1 / 1000000000
    ∧ ((livingChildren f).length = 0 → hasFather f = false → hasMother f = false →
        (livingSiblings f).length = 0 →
        ((heirs f).filter (fun h => h.isHeir)).map Heir.legalShare = [1]) := by
  have hspof : (livingChildren f).length = 0 → hasFather f = false →
      hasMother f = false → (livingSiblings f).length = 0 → hasSpouse f = true := by
    intro hn hhf hhm hm0
    rcases hact with h | h | h | h | h
    · omega
    · rw [hhf] at h; exact absurd h (by decide)
    · rw [hhm] at h; exact absurd h (by decide)
    · omega
    · exact h
  have hmain : heirShareSum (heirs f) = 1 := by
    by_cases h1 : 0 < (livingChildren f).length
    · exact sum_case1 f h1
    · have hn : (livingChildren f).length = 0 := by omega
      by_cases h2 : hasFather f = true ∨ hasMother f = true
      · exact sum_case2 f hn h2
      · push_neg at h2
        have hhf : hasFather f = false := by
          revert h2; cases hasFather f <;> simp
        have hhm : hasMother f = false := by
          revert h2; cases hasMother f <;> simp
        by_cases h3 : 0 < (livingSiblings f).length
        · exact sum_case3 f hn hhf hhm h3
        · have hm0 : (livingSiblings f).length = 0 := by omega
          have hfl := case4_filter f hn hhf hhm hm0 (hspof hn hhf hhm hm0)
          unfold heirShareSum
          rw [hfl]
          simp
  refine ⟨hmain, by rw [hmain]; norm_num, ?_⟩
  intro hn hhf hhm hm0
  exact case4_filter f hn hhf hhm hm0 (hspof hn hhf hhm hm0)

/-- Witness for C2: the tax-scenario family (spouse alive plus two living
children) has a non-empty active class. -/
theorem heir_share_sum_eq_one_witness :
    heirShareSum (heirs F5) = 1
    ∧ |heirShareSum (heirs F5) - 1| ≤ 1 / 1000000000
    ∧ ((livingChildren F5).length = 0 → hasFather F5 = false → hasMother F5 = false →
        (livingSiblings F5).length = 0 →
        ((heirs F5).filter (fun h => h.isHeir)).map Heir.legalShare = [1]) :=
  heir_share_sum_eq_one F5 (by decide)

/-! ## C3 -/

/-- C3: statutory shares by priority class.  When at least one child is alive:
every living child-relation record and the living spouse get
`legalShare = 1/N` with `N = livingChildCount + (spouse alive ? 1 : 0)`, and
parent/sibling records are non-heirs with share 0 (outer classes skipped
entirely).  When no child is alive but a parent is: the living spouse gets
1/2 and each living parent gets the remaining half split equally
(`(1/2)/parentCount` with a spouse, `1/parentCount` without). -/
theorem statutory_shares_by_priority (f : Family) :
    (0 < (livingChildren f).length →
      ∀ h ∈ heirs f,
        ((h.relation = Relation.child ∧ h.status = PersonStatus.alive) →
          h.isHeir = true
          ∧ h.legalShare
            = 1 / (((livingChildren f).length + (if hasSpouse f then 1 else 0) : ℕ) : ℚ))
        ∧ ((h.relation = Relation.spouse ∧ hasSpouse f = true) →
          h.isHeir = true
          ∧ h.legalShare = 1 / (((livingChildren f).length + 1 : ℕ) : ℚ))
        ∧ ((h.relation = Relation.parent ∨ h.relation = Relation.sibling) →
          h.isHeir = false ∧ h.legalShare = 0))
    ∧ ((livingChildren f).length = 0 → (hasFather f = true ∨ hasMother f = true) →
      ∀ h ∈ heirs f,
        ((h.relation = Relation.spouse ∧ hasSpouse f = true) →
          h.isHeir = true ∧ h.legalShare = 1/2)
        ∧ ((h.relation = Relation.parent ∧ h.status = PersonStatus.alive) →
          h.isHeir = true
          ∧ h.legalShare
            = (if hasSpouse f = true
              then (1/2) / (((if hasFather f then 1 else 0) + (if hasMother f then 1 else 0) : ℕ) : ℚ)
              else 1 / (((if hasFather f then 1 else 0) + (if hasMother f then 1 else 0) : ℕ) : ℚ)))) := by
  constructor
  · intro hn h hmem
    obtain ⟨pc, hpc, hh⟩ := List.mem_map.mp hmem
    subst hh
    refine ⟨?_, ?_, ?_⟩
    · rintro ⟨hrel, hst⟩
      rw [mkHeir_relation] at hrel
      rw [mkHeir_status] at hst
      constructor
      · rw [mkHeir_isHeir, hrel, (shareOf1_child _ hn _ _ _ _ _).1]
        simp [hst]
      · rw [mkHeir_legalShare, hrel, (shareOf1_child _ hn _ _ _ _ _).2, if_pos hst]
    · rintro ⟨hrel, hsp⟩
      rw [mkHeir_relation] at hrel
      constructor
      · rw [mkHeir_isHeir, hrel, (shareOf1_spouse _ hn _ _ _ _ _).1]
        exact hsp
      · rw [mkHeir_legalShare, hrel, (shareOf1_spouse _ hn _ _ _ _ _).2, if_pos hsp]
    · intro hrel
      rw [mkHeir_relation] at hrel
      constructor
      · rw [mkHeir_isHeir]
        rcases hrel with hr | hr <;> rw [hr]
        · exact (shareOf1_skip _ hn _ _ _ _ _ (Or.inl rfl) _).1
        · exact (shareOf1_skip _ hn _ _ _ _ _ (Or.inr rfl) _).1
      · rw [mkHeir_legalShare]
        rcases hrel with hr | hr <;> rw [hr]
        · exact (shareOf1_skip _ hn _ _ _ _ _ (Or.inl rfl) _).2
        · exact (shareOf1_skip _ hn _ _ _ _ _ (Or.inr rfl) _).2
  · intro hn hp h hmem
    obtain ⟨pc, hpc, hh⟩ := List.mem_map.mp hmem
    subst hh
    refine ⟨?_, ?_⟩
    · rintro ⟨hrel, hsp⟩
      rw [mkHeir_relation] at hrel
      constructor
      · rw [mkHeir_isHeir, hn, hrel, (shareOf2_spouse _ _ _ _ _ hp).1]
        exact hsp
      · rw [mkHeir_legalShare, hn, hrel, (shareOf2_spouse _ _ _ _ _ hp).2, if_pos hsp]
    · rintro ⟨hrel, hst⟩
      rw [mkHeir_relation] at hrel
      rw [mkHeir_status] at hst
      constructor
      · rw [mkHeir_isHeir, hn, hrel, (shareOf2_parent _ _ _ _ _ hp).1]
        simp [hst]
      · rw [mkHeir_legalShare, hn, hrel, (shareOf2_parent _ _ _ _ _ hp).2, if_pos hst]

/-- Witness for C3: in the tax-scenario family (spouse + 2 living children),
the child record at index 1 is an heir with statutory share `1/N = 1/3`. -/
theorem statutory_shares_by_priority_witness :
    ((heirs F5).get ⟨1, by decide⟩).isHeir = true
    ∧ ((heirs F5).get ⟨1, by decide⟩).legalShare
      = 1 / (((livingChildren F5).length + (if hasSpouse F5 then 1 else 0) : ℕ) : ℚ) :=
  ((statutory_shares_by_priority F5).1 (by decide) _ (List.get_mem _ _ _)).1
    ⟨by decide, by decide⟩

/-! ## C8 -/

/-- C8 counterexample: in the concrete family `FC1` (living child, living
father), the father — a non-spouse, non-participating person — is returned by
the resolver as an `isHeir = false` entry rather than being omitted, refuting
the claim that only the spouse slot is surfaced as a ghost. -/
theorem ghost_entries_cex :
    (heirs FC1).map (fun h => (h.id, h.relation, h.isHeir))
      = [("father", Relation.parent, false), ("c1", Relation.child, true)] := by
  decide

/-- C8 (amended): the resolver returns one record for *every* candidate —
the spouse/father/mother slots whenever their status is not `none`, and every
child and sibling regardless of status — and every record not in the active
class is surfaced with `isHeir = false` and `legalShare = 0` (not only the
spouse slot). -/
theorem heirs_returns_all_candidates (f : Family) :
    (heirs f).map Heir.toFamilyMember = (allCandidates f).map (fun pc => pc.1)
    ∧ ∀ h ∈ heirs f, h.isHeir = false → h.legalShare = 0 := by
  constructor
  · unfold heirs
    rw [List.map_map]
    rfl
  · intro h hmem hfalse
    obtain ⟨pc, hpc, hh⟩ := List.mem_map.mp hmem
    subst hh
    rw [mkHeir_isHeir] at hfalse
    rw [mkHeir_legalShare]
    exact shareOf_false_zero _ _ _ _ _ _ _ hfalse

/-- Witness for C8 (amended): the father record of `FC1` (a non-heir ghost)
carries `legalShare = 0`. -/
theorem heirs_returns_all_candidates_witness :
    ((heirs FC1).get ⟨0, by decide⟩).legalShare = 0 :=
  (heirs_returns_all_candidates FC1).2 _ (List.get_mem _ _ _) (by decide)

end InheritanceVisualizer
